import Mathlib

/-!
Verification of convert_images.py: the per-image transform pipeline
(orientation normalization, proportional fit, size-bounded quality search)
and the batch dispatcher. File I/O and the PIL encoder are abstracted as
explicit environments; arithmetic done by Python floats in the source is
modelled by exact rational arithmetic.
-/

set_option autoImplicit false

namespace ConvertImages

/-- PIL pixel modes relevant to this program. The source consults img.mode
(convert_images.py line 36). LA is grayscale with alpha, PA is palette with
alpha, P is palette. -/
inductive Mode
  | L | LA | P | PA | RGB | RGBA | CMYK | YCbCr
  deriving DecidableEq

/-- An in-memory decoded raster. Pixel content is abstracted into the data
token; width and height are the PIL size pair. -/
structure Img where
  mode : Mode
  width : ℕ
  height : ℕ
  data : ℕ
  deriving DecidableEq

/-- fit_box from convert_images.py lines 25-31: keep the size if both sides
are within max_side, otherwise scale by k = min(max_side/w, max_side/h).
Python float division is modelled by exact rational division, and Python
int() truncation (nonnegative here) by Int.floor followed by toNat. -/
def fit_box (size : ℕ × ℕ) (max_side : ℕ) : ℕ × ℕ :=
  let w := size.1
  let h := size.2
  if w ≤ max_side ∧ h ≤ max_side then (w, h)
  else
    let k : ℚ := min ((max_side : ℚ) / w) ((max_side : ℚ) / h)
    ((⌊(w : ℚ) * k⌋).toNat, (⌊(h : ℚ) * k⌋).toNat)

/-- Python range(start, stop, -step) for naturals with start > stop: CPython
materializes max(0, ceil((start - stop) / step)) elements start, start-step,
and so on. -/
def pythonRangeDown (start stop step : ℕ) : List ℕ :=
  (List.range ((start - stop + step - 1) / step)).map (fun i => start - step * i)

/-- The quality levels tried by save_with_limit, range(95, 40, -5) at
convert_images.py line 39. -/
def quality_levels : List ℕ := pythonRangeDown 95 40 5

/-- Lines 36-37 of save_with_limit: if img.mode in ("RGBA", "P") the image
is converted to RGB. Only the mode is tracked; the pixel flattening done by
convert lives inside the abstract data token. -/
def convertMode (img : Img) : Img :=
  if img.mode = Mode.RGBA ∨ img.mode = Mode.P then { img with mode := Mode.RGB } else img

/-- Environment of one save_with_limit call. enc img q models the JPEG
encoder invoked at quality q (lines 41 and 48); Except.error is an encoder
exception. writeRes models out_path.write_bytes at line 44, taken as atomic.
streamed40 is the byte prefix already written to out_path when the direct
quality-40 save at line 48 fails midway, since that save encodes straight
into the destination file. -/
structure SaveEnv where
  enc : Img → ℕ → Except String (List ℕ)
  writeRes : Except String Unit
  streamed40 : List ℕ

/-- The loop at lines 39-45: encode at each quality in order into an
in-memory buffer, stopping at the first encode whose byte length is within
max_bytes, or at an encoder exception. Returns the qualities attempted in
order, and the exit reason when the loop stopped early: the first fitting
encode, or the exception raised. -/
def qualityLoop (enc : ℕ → Except String (List ℕ)) (max_bytes : ℕ) :
    List ℕ → List ℕ × Option (Except String (List ℕ))
  | [] => ([], none)
  | q :: qs =>
    match enc q with
    | Except.error e => ([q], some (Except.error e))
    | Except.ok b =>
      if b.length ≤ max_bytes then ([q], some (Except.ok b))
      else
        let r := qualityLoop enc max_bytes qs
        (q :: r.1, r.2)

/-- save_with_limit, convert_images.py lines 34-48. Returns the qualities
attempted in order, the outcome of the call, and the final content of
out_path (none means no destination file exists). The quality-search branch
buffers in BytesIO and writes out_path only after a fully successful encode
(lines 40-44); the fallback at line 48 encodes directly into out_path, so a
fallback encoder exception leaves the streamed prefix behind. -/
def save_with_limit (env : SaveEnv) (img : Img) (max_bytes : ℕ) :
    List ℕ × Except String (List ℕ) × Option (List ℕ) :=
  let cimg := convertMode img
  let r := qualityLoop (env.enc cimg) max_bytes quality_levels
  match r.2 with
  | some (Except.ok b) =>
    match env.writeRes with
    | Except.ok _ => (r.1, Except.ok b, some b)
    | Except.error e => (r.1, Except.error e, none)
  | some (Except.error e) => (r.1, Except.error e, none)
  | none =>
    match env.enc cimg 40 with
    | Except.ok b => (r.1 ++ [40], Except.ok b, some b)
    | Except.error e => (r.1 ++ [40], Except.error e, some env.streamed40)

/-- The qualities at which save_with_limit invoked the encoder, in order. -/
def saveTrace (env : SaveEnv) (img : Img) (max_bytes : ℕ) : List ℕ :=
  (save_with_limit env img max_bytes).1

/-- The outcome of save_with_limit: the bytes chosen, or the exception. -/
def saveResult (env : SaveEnv) (img : Img) (max_bytes : ℕ) : Except String (List ℕ) :=
  (save_with_limit env img max_bytes).2.1

/-- The final content of the destination file after save_with_limit. -/
def saveFile (env : SaveEnv) (img : Img) (max_bytes : ℕ) : Option (List ℕ) :=
  (save_with_limit env img max_bytes).2.2

theorem quality_levels_eq :
    quality_levels = [95, 90, 85, 80, 75, 70, 65, 60, 55, 50, 45] := by
  decide

/-- The eight EXIF orientation tag values. -/
inductive Orientation
  | o1 | o2 | o3 | o4 | o5 | o6 | o7 | o8
  deriving DecidableEq

/-- Whether the orientation involves a 90-degree rotation, exchanging width
and height. -/
def Orientation.transposesDims : Orientation → Bool
  | .o5 | .o6 | .o7 | .o8 => true
  | _ => false

/-- Numeric EXIF code of the orientation. -/
def Orientation.code : Orientation → ℕ
  | .o1 => 1 | .o2 => 2 | .o3 => 3 | .o4 => 4
  | .o5 => 5 | .o6 => 6 | .o7 => 7 | .o8 => 8

/-- Applying the rotation or flip named by an EXIF orientation to a raster:
orientations 5 to 8 exchange width and height, and the pixel rearrangement
is recorded on the abstract data token. -/
def applyOrientation (o : Orientation) (img : Img) : Img :=
  { mode := img.mode
    width := if o.transposesDims then img.height else img.width
    height := if o.transposesDims then img.width else img.height
    data := Nat.pair o.code img.data }

/-- A decoded image together with its EXIF orientation tag, as produced by
Image.open (none means the tag is absent). -/
structure RawImg where
  img : Img
  orientation : Option Orientation
  deriving DecidableEq

/-- Modelled from the spec: ImageOps.exif_transpose, called at
convert_images.py line 62, is PIL library code absent from the repository.
Per the spec it applies the stored orientation transform so the pixel order
matches the display orientation, and clears the orientation tag afterward so
downstream consumers do not re-apply it; a tag of 1 (or no tag) names the
identity and leaves the image untouched. -/
def exifTranspose (r : RawImg) : RawImg :=
  match r.orientation with
  | none => r
  | some o =>
    if o = Orientation.o1 then r
    else { img := applyOrientation o r.img, orientation := none }

/-- The resize step of _process_one_worker, lines 63-65: compute the fitted
size and resample only when it differs from the current size. The resampler
itself (Image.resize with LANCZOS) is an abstract argument. -/
def resizeStep (resize : Img → ℕ × ℕ → Img) (img : Img) (max_side : ℕ) : Img :=
  let new_size := fit_box (img.width, img.height) max_side
  if new_size ≠ (img.width, img.height) then resize img new_size else img

/-- A source path relative to the input root, decomposed the way
pathlib.PurePath decomposes it: parent directory components, stem, and final
suffix (the part with_suffix replaces). -/
structure SrcPath where
  dirs : List String
  stem : String
  ext : String
  deriving DecidableEq

/-- The recognized raster extensions, convert_images.py line 20. -/
def ALLOWED_EXISTS : List String :=
  [".jpg", ".jpeg", ".png", ".webp", ".tif", ".tiff", ".bmp"]

/-- Destination derivation at lines 57-58: out_path is the relative source
path re-rooted under out_root with its suffix replaced by .jpg. Returned as
(directory components, file name). -/
def destPath (out_root : List String) (rel : SrcPath) : List String × String :=
  (out_root ++ rel.dirs, rel.stem ++ ".jpg")

/-- Rendering of out_path.relative_to(out_root) used in the Success tuple at
line 68. -/
def relDestString (rel : SrcPath) : String :=
  String.intercalate "/" (rel.dirs ++ [rel.stem ++ ".jpg"])

/-- The per-item result tuple (ok, rel_str, msg) returned by
_process_one_worker at lines 68 and 70. -/
structure Outcome where
  ok : Bool
  rel : SrcPath
  msg : String
  deriving DecidableEq

/-- Environment of one work item: its relative source path, the result of
opening and decoding the source file (Except.error covers unreadable and
corrupt sources), the abstract resampler, and the save environment. -/
structure ItemEnv where
  src : SrcPath
  decode : Except String RawImg
  resize : Img → ℕ × ℕ → Img
  save : SaveEnv

/-- _process_one_worker, lines 51-70: decode, normalize orientation, fit and
resize, then save_with_limit; any exception is caught and returned as a
failure tuple. Returns the outcome together with the final content of the
destination file (none means no file was created). -/
def processItem (env : ItemEnv) (max_side max_bytes : ℕ) : Outcome × Option (List ℕ) :=
  match env.decode with
  | Except.error e => ({ ok := false, rel := env.src, msg := e }, none)
  | Except.ok raw =>
    let im := (exifTranspose raw).img
    let im2 := resizeStep env.resize im max_side
    let s := save_with_limit env.save im2 max_bytes
    match s.2.1 with
    | Except.ok _ => ({ ok := true, rel := env.src, msg := relDestString env.src }, s.2.2)
    | Except.error e => ({ ok := false, rel := env.src, msg := e }, s.2.2)

/-- The batch dispatcher, lines 102-109: every submitted task is processed
by the isolated worker and every future is collected, one outcome per item.
Completion order is a permutation of submission order; the model lists
outcomes in submission order. -/
def runBatch (envs : List ItemEnv) (max_side max_bytes : ℕ) : List Outcome :=
  envs.map (fun e => (processItem e max_side max_bytes).1)

/-- Modelled from the spec: which PIL pixel modes carry an alpha channel.
The source only ever consults img.mode, and PIL marks alpha by A in the mode
name: RGBA, LA (grayscale with alpha), PA (palette with alpha). -/
def specHasAlpha : Mode → Bool
  | .RGBA | .LA | .PA => true
  | _ => false

/-- Modelled from the spec: which PIL pixel modes are palette-based: P and
PA. -/
def specHasPalette : Mode → Bool
  | .P | .PA => true
  | _ => false

/-- When the encoder never fails and every quality in the list encodes over
budget, the loop attempts every quality and exits without a winner. -/
theorem qualityLoop_all_fail (B : ℕ → List ℕ) (max_bytes : ℕ) (L : List ℕ)
    (h : ∀ q ∈ L, max_bytes < (B q).length) :
    qualityLoop (fun q => Except.ok (B q)) max_bytes L = (L, none) := by
  induction L with
  | nil => rfl
  | cons a as ih =>
    have ha : ¬ (B a).length ≤ max_bytes := by
      have := h a (List.mem_cons_self a as)
      omega
    have has : ∀ p ∈ as, max_bytes < (B p).length :=
      fun p hp => h p (List.mem_cons_of_mem a hp)
    simp [qualityLoop, ha, ih has]

/-- When the encoder never fails, the qualities before the first fitting one
all encode over budget, and q fits, the loop attempts exactly the failing
first levels followed by q and returns the encode at q. -/
theorem qualityLoop_first_fit (B : ℕ → List ℕ) (max_bytes : ℕ) (L1 : List ℕ)
    (q : ℕ) (L2 : List ℕ)
    (hfail : ∀ p ∈ L1, max_bytes < (B p).length)
    (hfit : (B q).length ≤ max_bytes) :
    qualityLoop (fun p => Except.ok (B p)) max_bytes (L1 ++ q :: L2) =
      (L1 ++ [q], some (Except.ok (B q))) := by
  induction L1 with
  | nil => simp [qualityLoop, hfit]
  | cons a as ih =>
    have ha : ¬ (B a).length ≤ max_bytes := by
      have := hfail a (List.mem_cons_self a as)
      omega
    have has : ∀ p ∈ as, max_bytes < (B p).length :=
      fun p hp => hfail p (List.mem_cons_of_mem a hp)
    simp [qualityLoop, ha, ih has]

/-- C1: if the quality search finds a level among 95..45 whose encoding has
byte length within max_bytes (q being the first such level, all earlier
levels encoding over budget), the bytes stored at the destination are
exactly that encoding and their length is within max_bytes; if every level
among 95..45 encodes over budget, the image is encoded once more at fixed
quality 40 and that result is stored and reported successful
unconditionally, with no bound on its length. -/
theorem save_with_limit_budget (env : SaveEnv) (img : Img) (max_bytes : ℕ)
    (B : ℕ → List ℕ)
    (henc : ∀ q, env.enc (convertMode img) q = Except.ok (B q))
    (hwrite : env.writeRes = Except.ok ()) :
    (∀ L1 q L2, quality_levels = L1 ++ q :: L2 →
        (∀ p ∈ L1, max_bytes < (B p).length) → (B q).length ≤ max_bytes →
        saveResult env img max_bytes = Except.ok (B q) ∧
        saveFile env img max_bytes = some (B q) ∧
        (B q).length ≤ max_bytes) ∧
    ((∀ q ∈ quality_levels, max_bytes < (B q).length) →
        saveResult env img max_bytes = Except.ok (B 40) ∧
        saveFile env img max_bytes = some (B 40)) := by
  have hfun : env.enc (convertMode img) = fun q => Except.ok (B q) := funext henc
  constructor
  · intro L1 q L2 hsplit hfail hfit
    have hloop := qualityLoop_first_fit B max_bytes L1 q L2 hfail hfit
    refine ⟨?_, ?_, hfit⟩ <;>
      simp [saveResult, saveFile, save_with_limit, hfun, hsplit, hloop, hwrite]
  · intro hall
    have hloop := qualityLoop_all_fail B max_bytes quality_levels hall
    constructor <;>
      simp [saveResult, saveFile, save_with_limit, hfun, hloop]

def c1B : ℕ → List ℕ := fun q => List.replicate q 0

def c1Img : Img := { mode := Mode.RGB, width := 100, height := 100, data := 0 }

def c1Env : SaveEnv :=
  { enc := fun _ q => Except.ok (c1B q), writeRes := Except.ok (), streamed40 := [] }

/-- C1 witness: an encoder whose output at quality q has q bytes and a
budget of 90 bytes: level 95 overshoots, level 90 is the first fit, and its
90 bytes are what is stored. -/
theorem save_with_limit_budget_witness :
    quality_levels = [95] ++ 90 :: [85, 80, 75, 70, 65, 60, 55, 50, 45] ∧
    90 < (c1B 95).length ∧ (c1B 90).length ≤ 90 ∧
    saveResult c1Env c1Img 90 = Except.ok (c1B 90) ∧
    saveFile c1Env c1Img 90 = some (c1B 90) := by
  have h := (save_with_limit_budget c1Env c1Img 90 c1B (fun q => rfl) rfl).1
      [95] 90 [85, 80, 75, 70, 65, 60, 55, 50, 45] (by decide)
      (by decide) (by decide)
  exact ⟨by decide, by decide, h.2.2, h.1, h.2.1⟩

def c2Env : SaveEnv :=
  { enc := fun _ _ => Except.ok [0, 0], writeRes := Except.ok (), streamed40 := [] }

def c2Img : Img := { mode := Mode.RGB, width := 100, height := 100, data := 0 }

/-- C2 counterexample: range(95, 40, -5) holds eleven levels, not ten. With
every encode two bytes long and a budget of one byte the search attempts
all levels and then the fallback, twelve encodes in total, where a
ten-level search would make eleven. -/
theorem quality_attempts_count_cex :
    saveTrace c2Env c2Img 1 = quality_levels ++ [40] ∧
    (saveTrace c2Env c2Img 1).length = 12 ∧
    quality_levels.length = 11 ∧ ¬ quality_levels.length = 10 := by
  decide

/-- C2 (amended): the quality search attempts levels starting at 95 and
decreasing by 5 down to 45 inclusive, eleven attempts (not ten) in strictly
decreasing order, stopping at the first level whose encoding fits max_bytes
with no further encodes after it; the fallback at 40 runs only after all
eleven levels have failed. -/
theorem quality_search_order (env : SaveEnv) (img : Img) (max_bytes : ℕ)
    (B : ℕ → List ℕ)
    (henc : ∀ q, env.enc (convertMode img) q = Except.ok (B q)) :
    quality_levels = [95, 90, 85, 80, 75, 70, 65, 60, 55, 50, 45] ∧
    List.Pairwise (fun a b => a > b) quality_levels ∧
    (∀ L1 q L2, quality_levels = L1 ++ q :: L2 →
        (∀ p ∈ L1, max_bytes < (B p).length) → (B q).length ≤ max_bytes →
        saveTrace env img max_bytes = L1 ++ [q]) ∧
    ((∀ q ∈ quality_levels, max_bytes < (B q).length) →
        saveTrace env img max_bytes = quality_levels ++ [40]) := by
  have hfun : env.enc (convertMode img) = fun q => Except.ok (B q) := funext henc
  refine ⟨by decide, by decide, ?_, ?_⟩
  · intro L1 q L2 hsplit hfail hfit
    have hloop := qualityLoop_first_fit B max_bytes L1 q L2 hfail hfit
    cases hw : env.writeRes <;>
      simp [saveTrace, save_with_limit, hfun, hsplit, hloop, hw]
  · intro hall
    have hloop := qualityLoop_all_fail B max_bytes quality_levels hall
    simp [saveTrace, save_with_limit, hfun, hloop]

/-- C2 witness: with every encode two bytes long and a budget of one byte,
the trace is exactly the eleven levels followed by the fallback at 40. -/
theorem quality_search_order_witness :
    quality_levels = [95, 90, 85, 80, 75, 70, 65, 60, 55, 50, 45] ∧
    1 < ([0, 0] : List ℕ).length ∧
    saveTrace c2Env c2Img 1 = quality_levels ++ [40] := by
  have h := quality_search_order c2Env c2Img 1 (fun _ => [0, 0]) (fun q => rfl)
  exact ⟨h.1, by decide, h.2.2.2 (by decide)⟩

/-- Truncation of a nonnegative rational stays within one unit below it. -/
theorem int_trunc_bounds (x : ℚ) (hx : 0 ≤ x) :
    x - 1 < ((⌊x⌋).toNat : ℚ) ∧ ((⌊x⌋).toNat : ℚ) ≤ x := by
  have h0 : (0 : ℤ) ≤ ⌊x⌋ := Int.floor_nonneg.mpr hx
  have hc : ((⌊x⌋).toNat : ℚ) = ((⌊x⌋ : ℤ) : ℚ) := by
    exact_mod_cast congrArg (fun z : ℤ => (z : ℚ)) (Int.toNat_of_nonneg h0)
  constructor
  · rw [hc]; exact Int.sub_one_lt_floor x
  · rw [hc]; exact Int.floor_le x

/-- What C3 asserts of an oversize input: the fitted size is the pair of
truncated scaled dimensions for k = min(max_side/w, max_side/h), the larger
fitted dimension is exactly max_side, both fitted dimensions are within one
unit of the exact scaled dimensions (aspect preserved up to rounding), and
neither exceeds the original. -/
def FitBoxOversizeSpec (w h m : ℕ) : Prop :=
  fit_box (w, h) m =
      ((⌊(w : ℚ) * min ((m : ℚ) / w) ((m : ℚ) / h)⌋).toNat,
        (⌊(h : ℚ) * min ((m : ℚ) / w) ((m : ℚ) / h)⌋).toNat) ∧
  max (fit_box (w, h) m).1 (fit_box (w, h) m).2 = m ∧
  (w : ℚ) * min ((m : ℚ) / w) ((m : ℚ) / h) - 1 < ((fit_box (w, h) m).1 : ℚ) ∧
  ((fit_box (w, h) m).1 : ℚ) ≤ (w : ℚ) * min ((m : ℚ) / w) ((m : ℚ) / h) ∧
  (h : ℚ) * min ((m : ℚ) / w) ((m : ℚ) / h) - 1 < ((fit_box (w, h) m).2 : ℚ) ∧
  ((fit_box (w, h) m).2 : ℚ) ≤ (h : ℚ) * min ((m : ℚ) / w) ((m : ℚ) / h) ∧
  (fit_box (w, h) m).1 ≤ w ∧ (fit_box (w, h) m).2 ≤ h

/-- C3: for every image with positive dimensions of which at least one
exceeds max_side, fit_box returns the truncated scaled dimensions for
k = min(max_side/w, max_side/h); the larger returned dimension equals
max_side, the aspect ratio is preserved up to one unit of truncation error
on each side, and neither dimension is upscaled. -/
theorem fit_box_oversize (w h m : ℕ) (hw : 0 < w) (hh : 0 < h)
    (hover : m < w ∨ m < h) : FitBoxOversizeSpec w h m := by
  have hcond : ¬ (w ≤ m ∧ h ≤ m) := by omega
  have hw' : (0 : ℚ) < (w : ℚ) := by exact_mod_cast hw
  have hh' : (0 : ℚ) < (h : ℚ) := by exact_mod_cast hh
  set k : ℚ := min ((m : ℚ) / w) ((m : ℚ) / h) with hkdef
  have hk0 : 0 ≤ k := le_min (by positivity) (by positivity)
  have hk1 : k < 1 := by
    rcases hover with hmw | hmh
    · refine lt_of_le_of_lt (min_le_left _ _) ?_
      rw [div_lt_one hw']; exact_mod_cast hmw
    · refine lt_of_le_of_lt (min_le_right _ _) ?_
      rw [div_lt_one hh']; exact_mod_cast hmh
  have hfb : fit_box (w, h) m =
      ((⌊(w : ℚ) * k⌋).toNat, (⌊(h : ℚ) * k⌋).toNat) := by
    simp [fit_box, hcond, hkdef]
  have hwb := int_trunc_bounds ((w : ℚ) * k) (by positivity)
  have hhb := int_trunc_bounds ((h : ℚ) * k) (by positivity)
  have hup : ∀ d : ℕ, 0 < (d : ℚ) → (⌊(d : ℚ) * k⌋).toNat ≤ d := by
    intro d hd
    have hdk : (d : ℚ) * k ≤ (d : ℚ) := mul_le_of_le_one_right hd.le hk1.le
    have hfl : ⌊(d : ℚ) * k⌋ ≤ (d : ℤ) := by
      have := Int.floor_le_floor hdk
      simpa using this
    exact Int.toNat_le.mpr hfl
  have hmax : max (⌊(w : ℚ) * k⌋).toNat (⌊(h : ℚ) * k⌋).toNat = m := by
    rcases le_or_lt h w with hhw | hwh
    · have hmw : m < w := by omega
      have hkw : k = (m : ℚ) / w := by
        rw [hkdef]
        refine min_eq_left ?_
        rw [div_le_div_iff₀ hw' hh']
        exact mul_le_mul_of_nonneg_left (by exact_mod_cast hhw) (by positivity)
      have hwm : (w : ℚ) * k = (m : ℚ) := by
        rw [hkw, mul_comm, div_mul_cancel₀ _ (ne_of_gt hw')]
      have hfst : (⌊(w : ℚ) * k⌋).toNat = m := by
        rw [hwm, Int.floor_natCast]; simp
      have hsnd : (⌊(h : ℚ) * k⌋).toNat ≤ m := by
        have hle : (h : ℚ) * k ≤ (m : ℚ) := by
          calc (h : ℚ) * k ≤ (w : ℚ) * k :=
                mul_le_mul_of_nonneg_right (by exact_mod_cast hhw) hk0
            _ = (m : ℚ) := hwm
        have hfl : ⌊(h : ℚ) * k⌋ ≤ (m : ℤ) := by
          have := Int.floor_le_floor hle
          simpa using this
        exact Int.toNat_le.mpr hfl
      rw [hfst]
      exact max_eq_left hsnd
    · have hmh : m < h := by omega
      have hkh : k = (m : ℚ) / h := by
        rw [hkdef]
        refine min_eq_right ?_
        rw [div_le_div_iff₀ hh' hw']
        exact mul_le_mul_of_nonneg_left (by exact_mod_cast hwh.le) (by positivity)
      have hhm : (h : ℚ) * k = (m : ℚ) := by
        rw [hkh, mul_comm, div_mul_cancel₀ _ (ne_of_gt hh')]
      have hsnd : (⌊(h : ℚ) * k⌋).toNat = m := by
        rw [hhm, Int.floor_natCast]; simp
      have hfst : (⌊(w : ℚ) * k⌋).toNat ≤ m := by
        have hle : (w : ℚ) * k ≤ (m : ℚ) := by
          calc (w : ℚ) * k ≤ (h : ℚ) * k :=
                mul_le_mul_of_nonneg_right (by exact_mod_cast hwh.le) hk0
            _ = (m : ℚ) := hhm
        have hfl : ⌊(w : ℚ) * k⌋ ≤ (m : ℤ) := by
          have := Int.floor_le_floor hle
          simpa using this
        exact Int.toNat_le.mpr hfl
      rw [hsnd]
      exact max_eq_right hfst
  refine ⟨hfb, ?_, ?_, ?_, ?_, ?_, ?_, ?_⟩ <;> rw [hfb]
  · exact hmax
  · exact hwb.1
  · exact hwb.2
  · exact hhb.1
  · exact hhb.2
  · exact hup w hw'
  · exact hup h hh'

/-- C3 witness: the 6000 by 4000 image of the round-trip scenario fitted
into a 2990 box comes out as 2990 by 1993. -/
theorem fit_box_oversize_witness :
    0 < 6000 ∧ 0 < 4000 ∧ (2990 < 6000 ∨ 2990 < 4000) ∧
    FitBoxOversizeSpec 6000 4000 2990 ∧
    fit_box (6000, 4000) 2990 = (2990, 1993) := by
  refine ⟨by decide, by decide, Or.inl (by decide),
    fit_box_oversize 6000 4000 2990 (by decide) (by decide) (Or.inl (by decide)),
    by
      norm_num [fit_box, Prod.ext_iff]
      exact ⟨by decide, by decide⟩⟩

/-- C4: for every image whose dimensions are both within max_side, fit_box
returns the original size unchanged and the worker's resize step leaves the
buffer untouched, invoking no resample. -/
theorem fit_box_within (resize : Img → ℕ × ℕ → Img) (img : Img) (m : ℕ)
    (hw : img.width ≤ m) (hh : img.height ≤ m) :
    fit_box (img.width, img.height) m = (img.width, img.height) ∧
    resizeStep resize img m = img := by
  have hfb : fit_box (img.width, img.height) m = (img.width, img.height) := by
    simp [fit_box, hw, hh]
  refine ⟨hfb, ?_⟩
  simp [resizeStep, hfb]

def c4Resize : Img → ℕ × ℕ → Img :=
  fun img ns => { img with width := ns.1, height := ns.2 }

def c4Img : Img := { mode := Mode.RGB, width := 500, height := 500, data := 5 }

/-- C4 witness: a 500 by 500 image under a 2990 box keeps its size and is
not resampled. -/
theorem fit_box_within_witness :
    c4Img.width ≤ 2990 ∧ c4Img.height ≤ 2990 ∧
    fit_box (c4Img.width, c4Img.height) 2990 = (c4Img.width, c4Img.height) ∧
    resizeStep c4Resize c4Img 2990 = c4Img := by
  have h := fit_box_within c4Resize c4Img 2990 (by decide) (by decide)
  exact ⟨by decide, by decide, h.1, h.2⟩

def c9Resize : Img → ℕ × ℕ → Img :=
  fun img ns => { img with width := ns.1, height := ns.2 }

def c9Img : Img := { mode := Mode.RGB, width := 1, height := 3000, data := 0 }

/-- C9: fit_box does not guarantee positive output dimensions: a 1 by 3000
image against a 2990 box scales to width zero, and the worker's resize step
then invokes the resampler with a zero-width target. -/
theorem fit_box_zero_width :
    0 < c9Img.width ∧ 2990 < c9Img.height ∧
    fit_box (c9Img.width, c9Img.height) 2990 = (0, 2990) ∧
    resizeStep c9Resize c9Img 2990 = c9Resize c9Img (0, 2990) ∧
    (c9Resize c9Img (0, 2990)).width = 0 := by
  have hfb : fit_box (1, 3000) 2990 = (0, 2990) := by
    norm_num [fit_box, Prod.ext_iff]
    decide
  refine ⟨by decide, by decide, hfb, ?_, rfl⟩
  simp [resizeStep, c9Img, hfb]

def c7AlphaImg : Img := { mode := Mode.LA, width := 8, height := 8, data := 0 }

/-- C7 counterexample: an LA buffer (grayscale with alpha) carries an alpha
channel, but the mode conversion before encoding touches only RGBA and P,
so the buffer is not flattened to RGB. -/
theorem convert_alpha_cex :
    specHasAlpha c7AlphaImg.mode = true ∧
    (convertMode c7AlphaImg).mode = Mode.LA ∧
    ¬ (convertMode c7AlphaImg).mode = Mode.RGB := by
  decide

/-- C7 (amended): a buffer whose mode is RGBA or P is flattened to RGB
before JPEG encoding; every other mode, including the alpha-bearing LA and
PA, is passed to the encoder unchanged. -/
theorem convert_mode_spec (img : Img) :
    ((img.mode = Mode.RGBA ∨ img.mode = Mode.P) → (convertMode img).mode = Mode.RGB) ∧
    (¬ (img.mode = Mode.RGBA ∨ img.mode = Mode.P) → convertMode img = img) := by
  constructor
  · intro h
    unfold convertMode
    rw [if_pos h]
  · intro h
    unfold convertMode
    rw [if_neg h]

def c7Img : Img := { mode := Mode.RGBA, width := 4, height := 4, data := 9 }

/-- C7 witness: an RGBA buffer is converted to RGB. -/
theorem convert_mode_spec_witness :
    (c7Img.mode = Mode.RGBA ∨ c7Img.mode = Mode.P) ∧
    (convertMode c7Img).mode = Mode.RGB :=
  ⟨Or.inl rfl, (convert_mode_spec c7Img).1 (Or.inl rfl)⟩

/-- C8: orientation normalization is idempotent: the first application
clears the orientation tag, so the second application finds no tag and
returns the buffer unchanged. -/
theorem exif_transpose_idempotent (r : RawImg) :
    exifTranspose (exifTranspose r) = exifTranspose r := by
  rcases r with ⟨img, o⟩
  cases o with
  | none => rfl
  | some o =>
    by_cases h1 : o = Orientation.o1
    · simp [exifTranspose, h1]
    · simp [exifTranspose, h1]

def c8Raw : RawImg :=
  { img := { mode := Mode.RGB, width := 30, height := 20, data := 4 }
    orientation := some Orientation.o6 }

/-- C8 witness: a buffer tagged with orientation 6 normalizes the same
whether the transform is applied once or twice. -/
theorem exif_transpose_idempotent_witness :
    exifTranspose (exifTranspose c8Raw) = exifTranspose c8Raw :=
  exif_transpose_idempotent c8Raw

/-- If the quality loop runs off the end of the list, every level encoded
successfully but over budget. -/
theorem qualityLoop_none (enc : ℕ → Except String (List ℕ)) (max_bytes : ℕ)
    (L : List ℕ) (h : (qualityLoop enc max_bytes L).2 = none) :
    ∀ q ∈ L, ∃ b, enc q = Except.ok b ∧ max_bytes < b.length := by
  induction L with
  | nil => intro q hq; simp at hq
  | cons a as ih =>
    intro q hq
    cases henc : enc a with
    | error e =>
      have : (qualityLoop enc max_bytes (a :: as)).2 = some (Except.error e) := by
        simp [qualityLoop, henc]
      rw [this] at h
      cases h
    | ok b =>
      by_cases hb : b.length ≤ max_bytes
      · have : (qualityLoop enc max_bytes (a :: as)).2 = some (Except.ok b) := by
          simp [qualityLoop, henc, hb]
        rw [this] at h
        cases h
      · have hrec : (qualityLoop enc max_bytes (a :: as)).2
            = (qualityLoop enc max_bytes as).2 := by
          simp [qualityLoop, henc, hb]
        rw [hrec] at h
        rcases List.mem_cons.mp hq with rfl | hq2
        · exact ⟨b, henc, by omega⟩
        · exact ih h q hq2

/-- A failing save_with_limit call leaves no destination file, except when
the failure is the fallback quality-40 encode: then every search level
encoded over budget and the streamed prefix of the direct save remains. -/
theorem save_failure_file (env : SaveEnv) (img : Img) (max_bytes : ℕ) (e : String)
    (h : saveResult env img max_bytes = Except.error e) :
    saveFile env img max_bytes = none ∨
      ((∀ q ∈ quality_levels,
          ∃ b, env.enc (convertMode img) q = Except.ok b ∧ max_bytes < b.length) ∧
        env.enc (convertMode img) 40 = Except.error e ∧
        saveFile env img max_bytes = some env.streamed40) := by
  cases hr : (qualityLoop (env.enc (convertMode img)) max_bytes quality_levels).2 with
  | none =>
    cases h40 : env.enc (convertMode img) 40 with
    | ok b =>
      exfalso
      simp [saveResult, save_with_limit, hr, h40] at h
    | error e' =>
      right
      have hres : saveResult env img max_bytes = Except.error e' := by
        simp [saveResult, save_with_limit, hr, h40]
      rw [hres] at h
      injection h with he'
      subst he'
      exact ⟨qualityLoop_none _ _ _ hr, rfl,
        by simp [saveFile, save_with_limit, hr, h40]⟩
  | some res =>
    cases res with
    | error e' =>
      left
      simp [saveFile, save_with_limit, hr]
    | ok b =>
      cases hw : env.writeRes with
      | ok u =>
        exfalso
        simp [saveResult, save_with_limit, hr, hw] at h
      | error e' =>
        left
        simp [saveFile, save_with_limit, hr, hw]

/-- C5 (amended): every failing work item emits a failure outcome naming
its source, and leaves no destination file — except when the failure is the
fallback quality-40 encode: in that case every search level encoded over
budget, the fallback streamed directly into the destination, and its
exception leaves the streamed prefix behind as a partial file. -/
theorem worker_failure_file_state (env : ItemEnv) (max_side max_bytes : ℕ)
    (hfail : (processItem env max_side max_bytes).1.ok = false) :
    (processItem env max_side max_bytes).1.rel = env.src ∧
    ((processItem env max_side max_bytes).2 = none ∨
      ∃ raw, env.decode = Except.ok raw ∧
        (∀ q ∈ quality_levels,
          ∃ b, env.save.enc
              (convertMode (resizeStep env.resize (exifTranspose raw).img max_side)) q
              = Except.ok b ∧ max_bytes < b.length) ∧
        (∃ e, env.save.enc
              (convertMode (resizeStep env.resize (exifTranspose raw).img max_side)) 40
              = Except.error e ∧ (processItem env max_side max_bytes).1.msg = e) ∧
        (processItem env max_side max_bytes).2 = some env.save.streamed40) := by
  cases hd : env.decode with
  | error e =>
    exact ⟨by simp [processItem, hd], Or.inl (by simp [processItem, hd])⟩
  | ok raw =>
    cases hs : (save_with_limit env.save
        (resizeStep env.resize (exifTranspose raw).img max_side) max_bytes).2.1 with
    | ok b =>
      exfalso
      simp [processItem, hd, hs] at hfail
    | error e =>
      refine ⟨by simp [processItem, hd, hs], ?_⟩
      have hsave := save_failure_file env.save
        (resizeStep env.resize (exifTranspose raw).img max_side) max_bytes e hs
      rcases hsave with hnone | ⟨hall, h40, hfile⟩
      · left
        have : (processItem env max_side max_bytes).2
            = saveFile env.save (resizeStep env.resize (exifTranspose raw).img max_side)
              max_bytes := by
          simp [processItem, hd, hs, saveFile]
        rw [this, hnone]
      · right
        refine ⟨raw, rfl, hall, ⟨e, h40, by simp [processItem, hd, hs]⟩, ?_⟩
        have : (processItem env max_side max_bytes).2
            = saveFile env.save (resizeStep env.resize (exifTranspose raw).img max_side)
              max_bytes := by
          simp [processItem, hd, hs, saveFile]
        rw [this, hfile]

def c5Env : ItemEnv :=
  { src := { dirs := [], stem := "photo", ext := ".png" }
    decode := Except.ok
      { img := { mode := Mode.RGB, width := 10, height := 10, data := 3 }
        orientation := none }
    resize := fun img _ => img
    save :=
      { enc := fun _ q =>
          if q = 40 then Except.error "broken data stream when writing image file"
          else Except.ok [0, 0]
        writeRes := Except.ok ()
        streamed40 := [255, 216, 255] } }

/-- C5 counterexample: an item whose every quality-level encode is two
bytes against a one-byte budget and whose fallback quality-40 encode raises
after streaming three bytes: the outcome is a failure, yet a partial
destination file of three bytes is left behind, because the fallback writes
directly into the destination instead of after a fully successful
transform. -/
theorem worker_partial_file_cex :
    (processItem c5Env 2990 1).1.ok = false ∧
    (processItem c5Env 2990 1).2 = some [255, 216, 255] ∧
    ¬ (processItem c5Env 2990 1).2 = none := by
  decide

def c5DecodeEnv : ItemEnv :=
  { src := { dirs := [], stem := "corrupt", ext := ".jpg" }
    decode := Except.error "cannot identify image file"
    resize := fun img _ => img
    save := { enc := fun _ _ => Except.ok [], writeRes := Except.ok (), streamed40 := [] } }

/-- C5 witness: a corrupt source fails at decode, the outcome is a failure
naming the source, and no destination file is created. -/
theorem worker_failure_file_state_witness :
    (processItem c5DecodeEnv 2990 10).1.ok = false ∧
    (processItem c5DecodeEnv 2990 10).1.rel = c5DecodeEnv.src ∧
    (processItem c5DecodeEnv 2990 10).2 = none :=
  ⟨by decide, (worker_failure_file_state c5DecodeEnv 2990 10 (by decide)).1, by decide⟩

/-- Whatever happens inside one item, its outcome names its own source. -/
theorem processItem_rel (env : ItemEnv) (max_side max_bytes : ℕ) :
    ((processItem env max_side max_bytes).1).rel = env.src := by
  cases hd : env.decode with
  | error e => simp [processItem, hd]
  | ok raw =>
    cases hs : (save_with_limit env.save
        (resizeStep env.resize (exifTranspose raw).img max_side) max_bytes).2.1 with
    | ok b => simp [processItem, hd, hs]
    | error e => simp [processItem, hd, hs]

/-- C6: for every submitted list of items, one outcome is produced per item;
the outcome at position i is exactly the isolated worker's result on the
item at position i alone, so no item influences another's outcome; the
outcomes name the sources item for item, and when the submitted source
paths are distinct, each source path appears in exactly one outcome. -/
theorem batch_outcomes (envs : List ItemEnv) (max_side max_bytes : ℕ) :
    (runBatch envs max_side max_bytes).length = envs.length ∧
    (∀ i : ℕ, (runBatch envs max_side max_bytes)[i]? =
      (envs[i]?).map (fun e => (processItem e max_side max_bytes).1)) ∧
    (runBatch envs max_side max_bytes).map Outcome.rel = envs.map ItemEnv.src ∧
    ((envs.map ItemEnv.src).Nodup →
      ∀ p ∈ envs.map ItemEnv.src,
        ((runBatch envs max_side max_bytes).map Outcome.rel).count p = 1) := by
  have hmap : (runBatch envs max_side max_bytes).map Outcome.rel
      = envs.map ItemEnv.src := by
    simp only [runBatch, List.map_map]
    exact List.map_congr_left fun e he => processItem_rel e max_side max_bytes
  refine ⟨by simp [runBatch], ?_, hmap, ?_⟩
  · intro i
    simp [runBatch]
  · intro hnd p hp
    rw [hmap]
    exact List.count_eq_one_of_mem hnd hp

def c6EnvA : ItemEnv :=
  { src := { dirs := [], stem := "a", ext := ".png" }
    decode := Except.ok
      { img := { mode := Mode.RGB, width := 10, height := 10, data := 1 }
        orientation := none }
    resize := fun img _ => img
    save := { enc := fun _ _ => Except.ok [1], writeRes := Except.ok (), streamed40 := [] } }

def c6EnvB : ItemEnv :=
  { src := { dirs := [], stem := "b", ext := ".png" }
    decode := Except.error "read error"
    resize := fun img _ => img
    save := { enc := fun _ _ => Except.ok [2], writeRes := Except.ok (), streamed40 := [] } }

/-- C6 witness: two items, the second failing at decode: two outcomes, each
source named exactly once, and the failure leaves the other item's success
untouched. -/
theorem batch_outcomes_witness :
    (runBatch [c6EnvA, c6EnvB] 2990 10).length = 2 ∧
    (runBatch [c6EnvA, c6EnvB] 2990 10).map Outcome.rel
      = [c6EnvA, c6EnvB].map ItemEnv.src ∧
    ((runBatch [c6EnvA, c6EnvB] 2990 10).map Outcome.rel).count c6EnvA.src = 1 ∧
    (runBatch [c6EnvA, c6EnvB] 2990 10).map Outcome.ok = [true, false] := by
  have h := batch_outcomes [c6EnvA, c6EnvB] 2990 10
  exact ⟨h.1, h.2.2.1, h.2.2.2 (by decide) c6EnvA.src (by decide), by decide⟩

def c10Root : List String := ["convert_image", "album"]

def c10A : SrcPath := { dirs := [], stem := "a", ext := ".png" }

def c10B : SrcPath := { dirs := [], stem := "a", ext := ".tif" }

def c10EnvA : ItemEnv :=
  { src := c10A
    decode := Except.ok
      { img := { mode := Mode.RGB, width := 10, height := 10, data := 1 }
        orientation := none }
    resize := fun img _ => img
    save := { enc := fun _ _ => Except.ok [1], writeRes := Except.ok (), streamed40 := [] } }

def c10EnvB : ItemEnv :=
  { src := c10B
    decode := Except.ok
      { img := { mode := Mode.RGB, width := 10, height := 10, data := 2 }
        orientation := none }
    resize := fun img _ => img
    save := { enc := fun _ _ => Except.ok [2], writeRes := Except.ok (), streamed40 := [] } }

/-- C10: the source to destination mapping is not injective: two distinct
recognized sources in the same directory with the same stem, a.png and
a.tif, map to the same destination a.jpg; both items process successfully
with different bytes, so the shared destination holds whichever item wrote
last while both report success. -/
theorem dest_collision :
    ¬ c10A = c10B ∧
    c10A.ext ∈ ALLOWED_EXISTS ∧ c10B.ext ∈ ALLOWED_EXISTS ∧
    destPath c10Root c10A = destPath c10Root c10B ∧
    (processItem c10EnvA 2990 10).1.ok = true ∧
    (processItem c10EnvB 2990 10).1.ok = true ∧
    (processItem c10EnvA 2990 10).2 = some [1] ∧
    (processItem c10EnvB 2990 10).2 = some [2] ∧
    ¬ ([1] : List ℕ) = [2] := by
  decide

end ConvertImages
